import Mathlib

/-!
# FaceEmotion.cpp : the polling call `FaceEmotionResults`

A shallow embedding of `FaceEmotionResults` (src/predefined/FaceEmotion.cpp, lines 211-440).

Conventions of the embedding.

* A finite `float` is modelled by the rational number it denotes.  The comparisons of the
  source (`!=`, `>=`, `>`, `<=`) are exact on finite floats.  The only arithmetic on floats is
  the product of a box coordinate with a frame dimension (lines 335-338); the coordinates come
  from a half-precision tensor (`getFirstLayerFp16`), whose values have 11 significant bits, so
  that product is exact in single precision for every frame dimension below 8192 and is modelled
  by the exact product.
* `int` and `std::size_t` values (loop counters, tensor sizes, pixel coordinates) stay far below
  2^31 and are modelled by `Nat` and `Int` without wrap-around.
* `std::vector::operator[]` with an index at or beyond the size has no defined result: the model
  ends the run with a `Fault` that names the index.
* The device layer (queues, OpenCV, the JSON library, `computeDepth`, `GetDeviceInfo`, `GetIMU`)
  is outside the file; what it hands to the function is a field of `Env`, and every call made to
  it is logged as an `Event`.
* A `nlohmann::json` value that is used as an object is represented by the list of its members;
  a value that never receives a member has the empty list.  How the JSON library prints a value
  is outside the file.
* Calls into the device layer and into OpenCV are taken to return.  `frame(cv::Rect(..))`
  requires the rectangle to lie inside `frame`; `crop_inside_frame` shows that it does for every
  normalized box within [0,1]^4.
-/

namespace FaceEmotion

/-! ## Data model -/

/-- Reasons for which a run has no defined continuation. -/
inductive Fault where
  /-- Evaluation of `detData[idx]` with `idx >= detData.size()`. -/
  | detDataRead (idx : Nat)
  /-- Evaluation of `detfaceYData[idx]` with `idx >= detfaceYData.size()`. -/
  | emotionRead (idx : Nat)
  /-- The iteration budget of the model of the `while` loop ran out (shown unreachable). -/
  | fuel
  deriving DecidableEq

/-- Outcome of a computation that may read a vector out of range. -/
inductive Res (α : Type) where
  | ok (a : α)
  | fault (f : Fault)
  deriving DecidableEq

/-- Sequencing of fallible steps. -/
def Res.bind {α β : Type} : Res α → (α → Res β) → Res β
  | .ok a, f => f a
  | .fault e, _ => .fault e

/-- The local `struct Detection` (lines 270-277). -/
structure Detection where
  label : Nat
  score : ℚ
  x_min : ℚ
  y_min : ℚ
  x_max : ℚ
  y_max : ℚ
  deriving DecidableEq

/-- Conversion of a float to `int`: the fractional part is discarded (rounding toward zero). -/
def truncToInt (q : ℚ) : Int := Int.tdiv q.num (q.den : Int)

/-- Conversion of a float to `unsigned int` (line 312); C++ defines it for values above -1
only, and the model maps the others to 0. -/
def truncToUInt (q : ℚ) : Nat := (truncToInt q).toNat

/-- The read `detData[idx]`. -/
def readDet (detData : List ℚ) (idx : Nat) : Res ℚ :=
  match detData[idx]? with
  | some v => .ok v
  | none => .fault (.detDataRead idx)

/-- The variables written by the decode loop: `dets`, `maxScore`, `maxPos`. -/
structure DecodeState where
  dets : List Detection
  maxScore : ℚ
  maxPos : Nat
  deriving DecidableEq

/-- Values at lines 279-284: `dets` empty, `maxScore = 0.0`, `maxPos = 0`. -/
def DecodeState.init : DecodeState := ⟨[], 0, 0⟩

/-! ## The decode loop (lines 307-329) -/

/-- The `while` loop of lines 309-328, started at counter `i`.  The condition reads
`detData[i*7]` before it compares `i*7` with the size; the body reads elements 1 and 2 of the
record, and elements 3 to 6 only when the score passes the threshold. -/
def decodeLoop (detData : List ℚ) (faceScoreThreshold : ℚ) :
    Nat → Nat → DecodeState → Res DecodeState
  | 0, _, _ => .fault .fuel
  | n + 1, i, s =>
    (readDet detData (i * 7)).bind fun first =>
    if first ≠ -1 ∧ i * 7 < detData.length then
      (readDet detData (i * 7 + 1)).bind fun lab =>
      (readDet detData (i * 7 + 2)).bind fun score =>
      if score ≥ faceScoreThreshold then
        let maxScore := if score > s.maxScore then score else s.maxScore
        let maxPos := if score > s.maxScore then i else s.maxPos
        (readDet detData (i * 7 + 3)).bind fun xmin =>
        (readDet detData (i * 7 + 4)).bind fun ymin =>
        (readDet detData (i * 7 + 5)).bind fun xmax =>
        (readDet detData (i * 7 + 6)).bind fun ymax =>
        decodeLoop detData faceScoreThreshold n (i + 1)
          ⟨s.dets ++ [⟨truncToUInt lab, score, xmin, ymin, xmax, ymax⟩], maxScore, maxPos⟩
      else
        decodeLoop detData faceScoreThreshold n (i + 1) s
    else
      .ok s

/-- Lines 307-329: the loop runs only on a non-empty tensor, from `i = 0`. -/
def decode (detData : List ℚ) (faceScoreThreshold : ℚ) : Res DecodeState :=
  if detData.length > 0 then
    decodeLoop detData faceScoreThreshold (detData.length + 1) 0 DecodeState.init
  else
    .ok DecodeState.init

/-! ## JSON values, frames, the device layer -/

/-- A scalar stored in a member of `bestFace` or `faceEmotion`. -/
inductive JVal where
  | uint (n : Nat)
  | int (i : Int)
  | float (q : ℚ)
  deriving DecidableEq

/-- A json object, as the list of its members in order of first assignment. -/
abbrev Obj := List (String × JVal)

/-- The assignment `obj[key] = v`: an existing member is overwritten, a new one is added. -/
def setMember : Obj → String → JVal → Obj
  | [], key, v => [(key, v)]
  | (k, w) :: rest, key, v =>
    if k = key then (k, v) :: rest else (k, w) :: setMember rest key v

/-- The member names of an object. -/
def keys (o : Obj) : List String := o.map Prod.fst

/-- The dimensions of a `cv::Mat`; a default-constructed one has `cols = rows = 0`. -/
structure Mat where
  cols : Int
  rows : Int
  deriving DecidableEq

/-- The default-constructed `cv::Mat frame` of line 234. -/
def Mat.empty : Mat := ⟨0, 0⟩

/-- One element of the vector returned by `computeDepth`: its `spatialCoordinates`. -/
structure Spatial where
  x : ℚ
  y : ℚ
  z : ℚ
  deriving DecidableEq

/-- A call made to the device layer or to the image library. -/
inductive Event where
  | getOutputQueue (name : String)
  | getInputQueue (name : String)
  | tryGetAll (name : String)
  | get (name : String)
  | send (name : String)
  | computeDepth (mx my rows : Int)
  | rectangle (x1 y1 x2 y2 : Int)
  | toARGB
  | getDeviceInfo
  | getIMU
  deriving DecidableEq

/-- A call to the depth correlator `computeDepth`. -/
def Event.isComputeDepth : Event → Bool
  | .computeDepth _ _ _ => true
  | _ => false

/-- What the device layer holds when the call is made. -/
structure Env where
  /-- Whether `GetDevice(deviceNum)` is not NULL. -/
  devicePresent : Int → Bool
  /-- The value of `IsDeviceRunning(deviceNum)`. -/
  deviceRunning : Int → Bool
  /-- The frames buffered on "preview", oldest first, each as the matrix `toMat` builds from
  it (`none` for a null pointer). -/
  previewFrames : List (Option Mat)
  /-- The first layer of the tensor delivered by "detections". -/
  detData : List ℚ
  /-- The number of frames buffered on "depth". -/
  depthFrames : Nat
  /-- The first layer of the tensor delivered by "landm_out". -/
  detfaceYData : List ℚ
  /-- The result of `computeDepth(mx, my, frame.rows, depthFrameOrig)`. -/
  computeDepth : Int → Int → Int → List Spatial
  /-- The result of `GetDeviceInfo(device)`. -/
  sysinfo : String
  /-- The result of `GetIMU(device)`. -/
  imu : String

/-- The arguments of `FaceEmotionResults` (the `frameInfo` buffer apart). -/
structure Args where
  getPreview : Bool
  width : Int
  height : Int
  drawBestFaceInPreview : Bool
  drawAllFacesInPreview : Bool
  faceScoreThreshold : ℚ
  useDepth : Bool
  retrieveInformation : Bool
  useIMU : Bool
  deviceNum : Int

/-- The object `faceEmotionJson` of lines 421-427. -/
structure ResultObject where
  sysinfo : Option String
  imu : Option String
  best : Obj
  faceEmotion : Obj
  deriving DecidableEq

/-- The text returned: a literal, or the dump of `faceEmotionJson`. -/
inductive Reply where
  | text (s : String)
  | json (o : ResultObject)
  deriving DecidableEq

/-- A run of the call: the events in order, and the reply or the fault that ended it. -/
structure Run where
  trace : List Event
  result : Res Reply
  deriving DecidableEq

/-! ## The body of `FaceEmotionResults` -/

/-- Lines 247-256: the queue handles, in the order in which they are taken. -/
def openQueues (a : Args) : List Event :=
  (if a.getPreview then [Event.getOutputQueue "preview"] else []) ++
  [Event.getOutputQueue "detections", Event.getInputQueue "landm_in",
    Event.getOutputQueue "landm_out"] ++
  (if a.useDepth then [Event.getOutputQueue "depth"] else [])

/-- Lines 258-268: `frame` is the newest buffered preview frame when the preview is requested
and one is there, and stays empty otherwise. -/
def previewFrame (a : Args) (e : Env) : Mat :=
  if a.getPreview then
    match e.previewFrames.getLast? with
    | some (some m) => m
    | _ => Mat.empty
  else Mat.empty

/-- Lines 258-305: the reads that precede the decode loop. -/
def fetchEvents (a : Args) : List Event :=
  (if a.getPreview then [Event.tryGetAll "preview"] else []) ++
  [Event.get "detections"] ++
  (if a.useDepth then [Event.tryGetAll "depth"] else [])

/-- The four corners `x1, y1, x2, y2` of a box in pixels. -/
structure Box where
  x1 : Int
  y1 : Int
  x2 : Int
  y2 : Int
  deriving DecidableEq

/-- Lines 335-338: the normalized box scaled by the frame size, each product converted to
`int`. -/
def pixelBox (d : Detection) (frame : Mat) : Box :=
  ⟨truncToInt (d.x_min * frame.cols), truncToInt (d.y_min * frame.rows),
   truncToInt (d.x_max * frame.cols), truncToInt (d.y_max * frame.rows)⟩

/-- Line 339: `x1 + ((x2 - x1) / 2)` with the division of `int`. -/
def center (lo hi : Int) : Int := lo + Int.tdiv (hi - lo) 2

/-- Lines 356-365: the corners given to `cv::Rect`: unchanged when the test of line 356 holds,
else `x1, y1` raised to 0 and `x2, y2` lowered to 300. -/
def cropBox (b : Box) : Box :=
  if b.x1 > 0 ∧ b.y1 > 0 ∧ b.x2 < 300 ∧ b.y2 < 300 then b
  else
    ⟨if b.x1 ≤ 0 then 0 else b.x1, if b.y1 ≤ 0 then 0 else b.y1,
     if b.x2 ≥ 300 then 300 else b.x2, if b.y2 ≥ 300 then 300 else b.y2⟩

/-- The size of `frame(cv::Rect(cv::Point(x1, y1), cv::Point(x2, y2)))`: a rectangle built from
two points spans from the smaller to the larger coordinate (OpenCV), and the view has the size
of the rectangle. -/
def cropSize (c : Box) : Mat :=
  ⟨max c.x1 c.x2 - min c.x1 c.x2, max c.y1 c.y2 - min c.y1 c.y2⟩

/-- The read `detfaceYData[idx]`. -/
def readEmotion (r : List ℚ) (idx : Nat) : Res ℚ :=
  match r[idx]? with
  | some v => .ok v
  | none => .fault (.emotionRead idx)

/-- Lines 382-389: the five members of `faceEmotion`, read when the response is not empty. -/
def emotionDecode (r : List ℚ) (faceEmotion : Obj) : Res Obj :=
  if r.length > 0 then
    (readEmotion r 0).bind fun v0 =>
    (readEmotion r 1).bind fun v1 =>
    (readEmotion r 2).bind fun v2 =>
    (readEmotion r 3).bind fun v3 =>
    (readEmotion r 4).bind fun v4 =>
    .ok (setMember (setMember (setMember (setMember (setMember faceEmotion
      "neutral" (.float v0)) "happy" (.float v1)) "sad" (.float v2))
      "surprise" (.float v3)) "anger" (.float v4))
  else .ok faceEmotion

/-- Lines 395-402: every element of the result of `computeDepth` sets `X`, `Y`, `Z`. -/
def depthMembers (sp : List Spatial) (bestFace : Obj) : Obj :=
  sp.foldl (fun b s =>
    setMember (setMember (setMember b "X" (.int (truncToInt s.x)))
      "Y" (.int (truncToInt s.y))) "Z" (.int (truncToInt s.z))) bestFace

/-- Lines 347-354: the eight members written for the best face. -/
def bestMembers (bestFace : Obj) (d : Detection) (mx my : Int) : Obj :=
  setMember (setMember (setMember (setMember (setMember (setMember (setMember (setMember bestFace
    "label" (.uint d.label)) "score" (.float d.score)) "xmin" (.float d.x_min))
    "ymin" (.float d.y_min)) "xmax" (.float d.x_max)) "ymax" (.float d.y_max))
    "xcenter" (.int mx)) "ycenter" (.int my)

/-- The variables that the loop over `dets` updates, with the events so far and the fault that
stopped the run, if any. -/
structure LoopState where
  trace : List Event
  bestFace : Obj
  faceEmotion : Obj
  halted : Option Fault
  deriving DecidableEq

/-- Lines 335-407: the body executed for the element of `dets` whose position is `maxPos`. -/
def bestBody (a : Args) (e : Env) (frame : Mat) (d : Detection) (st : LoopState) : LoopState :=
  let b := pixelBox d frame
  let mx := center b.x1 b.x2
  let my := center b.y1 b.y2
  if a.faceScoreThreshold ≤ d.score then
    let bestFace := bestMembers st.bestFace d mx my
    let c := cropBox b
    let faceFrame := cropSize c
    if faceFrame.cols > 0 ∧ faceFrame.rows > 0 then
      let tr := st.trace ++ [Event.send "landm_in", Event.get "landm_out"]
      match emotionDecode e.detfaceYData st.faceEmotion with
      | .fault f => ⟨tr, bestFace, st.faceEmotion, some f⟩
      | .ok faceEmotion =>
        let withDepth := a.useDepth ∧ e.depthFrames > 0
        let bestFace2 :=
          if withDepth then depthMembers (e.computeDepth mx my frame.rows) bestFace
          else bestFace
        let tr2 := tr ++ (if withDepth then [Event.computeDepth mx my frame.rows] else [])
          ++ (if a.drawBestFaceInPreview then [Event.rectangle c.x1 c.y1 c.x2 c.y2] else [])
        ⟨tr2, bestFace2, faceEmotion, none⟩
    else
      ⟨st.trace, bestFace, st.faceEmotion, none⟩
  else st

/-- Lines 330-410: the loop over `dets` with its counter `i`; the body runs where
`i == maxPos`. -/
def bestLoop (a : Args) (e : Env) (frame : Mat) (maxPos : Nat) :
    List Detection → Nat → LoopState → LoopState
  | [], _, st => st
  | d :: ds, i, st =>
    if i = maxPos then
      let st2 := bestBody a e frame d st
      if st2.halted.isSome then st2 else bestLoop a e frame maxPos ds (i + 1) st2
    else bestLoop a e frame maxPos ds (i + 1) st

/-- Lines 412-433: the preview copy, the telemetry, and the object that is dumped. -/
def finish (a : Args) (e : Env) (frame : Mat) (st : LoopState) : Run :=
  let tr := st.trace
    ++ (if a.getPreview ∧ frame.cols > 0 ∧ frame.rows > 0 then [Event.toARGB] else [])
    ++ (if a.retrieveInformation then [Event.getDeviceInfo] else [])
    ++ (if a.useIMU then [Event.getIMU] else [])
  ⟨tr, .ok (.json ⟨if a.retrieveInformation then some e.sysinfo else none,
    if a.useIMU then some e.imu else none, st.bestFace, st.faceEmotion⟩)⟩

/-- Lines 229-434: the call on a device that runs its pipeline. -/
def runningCall (a : Args) (e : Env) : Run :=
  let frame := previewFrame a e
  let tr := openQueues a ++ fetchEvents a
  match decode e.detData a.faceScoreThreshold with
  | .fault f => ⟨tr, .fault f⟩
  | .ok s =>
    let st := bestLoop a e frame s.maxPos s.dets 0 ⟨tr, [], [], none⟩
    match st.halted with
    | some f => ⟨st.trace, .fault f⟩
    | none => finish a e frame st

/-- The literal returned at lines 221-224. -/
def noDeviceText : String := "\x7b\"error\":\"NO_DEVICE\"\x7d"

/-- The literal returned at lines 436-439. -/
def notRunningText : String := "\x7b\"error\":\"DEVICE_NOT_RUNNING\"\x7d"

/-- The exported call `FaceEmotionResults` (lines 211-440). -/
def FaceEmotionResults (a : Args) (e : Env) : Run :=
  if e.devicePresent a.deviceNum = false then ⟨[], .ok (.text noDeviceText)⟩
  else if e.deviceRunning a.deviceNum then runningCall a e
  else ⟨[], .ok (.text notRunningText)⟩

/-! ## Records of the detection tensor, as the specification describes them -/

/-- A fixed-width record `[batchIndex, label, score, xmin, ymin, xmax, ymax]` of the tensor. -/
structure Record where
  batch : ℚ
  label : ℚ
  score : ℚ
  xmin : ℚ
  ymin : ℚ
  xmax : ℚ
  ymax : ℚ
  deriving DecidableEq

/-- The seven elements of a record, in tensor order. -/
def Record.toList (r : Record) : List ℚ :=
  [r.batch, r.label, r.score, r.xmin, r.ymin, r.xmax, r.ymax]

/-- The flat tensor made of the given records. -/
def encode : List Record → List ℚ
  | [] => []
  | r :: rs => r.toList ++ encode rs

/-- The detection a record stands for: label from element 1, score from element 2, box from
elements 3 to 6. -/
def Record.toDetection (r : Record) : Detection :=
  ⟨truncToUInt r.label, r.score, r.xmin, r.ymin, r.xmax, r.ymax⟩

/-- The records whose score is at least the threshold, in tensor order, as detections. -/
def retained (t : ℚ) (recs : List Record) : List Detection :=
  (recs.filter fun r => r.score ≥ t).map Record.toDetection

/-- The effect of the decode loop on a list of records, the first of which has index `i`. -/
def foldRecords (t : ℚ) : List Record → Nat → DecodeState → DecodeState
  | [], _, s => s
  | r :: rs, i, s =>
    if r.score ≥ t then
      foldRecords t rs (i + 1)
        ⟨s.dets ++ [r.toDetection], if r.score > s.maxScore then r.score else s.maxScore,
          if r.score > s.maxScore then i else s.maxPos⟩
    else foldRecords t rs (i + 1) s

/-- The value of the member `key` of an object, if it has one. -/
def getMember : Obj → String → Option JVal
  | [], _ => none
  | (k, w) :: rest, key => if k = key then some w else getMember rest key

/-- The member names written by lines 347-354, in order. -/
def bestKeys : List String :=
  ["label", "score", "xmin", "ymin", "xmax", "ymax", "xcenter", "ycenter"]

/-- The state in which the loop over `dets` starts: the events of the acquisition phase, and
`bestFace` and `faceEmotion` without members (lines 286-287). -/
def loopStart (a : Args) : LoopState := ⟨openQueues a ++ fetchEvents a, [], [], none⟩

/-- The end of a call whose loop over `dets` finished in state `st` (lines 412-433), or the
fault that stopped it. -/
def conclude (a : Args) (e : Env) (st : LoopState) : Run :=
  match st.halted with
  | some f => ⟨st.trace, .fault f⟩
  | none => finish a e (previewFrame a e) st

/-! ## Observations on a run, and the scenarios used as concrete inputs -/

/-- The "best" member of the reply, when the call returned the dump of the result object. -/
def Run.best (r : Run) : Option Obj :=
  match r.result with
  | .ok (.json o) => some o.best
  | _ => none

/-- The "faceEmotion" member of the reply, when the call returned the dump of the result
object. -/
def Run.faceEmotion (r : Run) : Option Obj :=
  match r.result with
  | .ok (.json o) => some o.faceEmotion
  | _ => none

/-- Arguments of the scenarios: preview and depth requested, device 0, score threshold `t`,
with or without the box of the best face drawn. -/
def scenarioArgs (t : ℚ) (draw : Bool) : Args :=
  ⟨true, 300, 300, draw, false, t, true, false, false, 0⟩

/-- A running device that holds one preview frame of the given size, the detection tensor
`detData`, one depth frame, and the stage-2 response `resp`. -/
def scenarioEnv (frame : Mat) (detData resp : List ℚ) : Env :=
  ⟨fun _ => true, fun _ => true, [some frame], detData, 1, resp,
    fun _ _ _ => [⟨10, 20, 30⟩], "sysinfo", "imu"⟩

/-- The tensor of scenarios C and D: one record with score 0.9, then the sentinel. -/
def oneFace : List ℚ := [0, 0, 0.9, 0.1, 0.1, 0.5, 0.5, -1]

/-- Three records with scores 0.3, 0.9 and 0.6 and labels 0, 1 and 2, then the sentinel. -/
def threeFaces : List ℚ :=
  [0, 0, 0.3, 0.125, 0.125, 0.25, 0.25,
   0, 1, 0.9, 0.25, 0.25, 0.75, 0.75,
   0, 2, 0.6, 0.5, 0.5, 1, 1,
   -1]

/-- A stage-2 response with five probabilities. -/
def fiveScores : List ℚ := [0.1, 0.2, 0.3, 0.25, 0.15]

/-- A detection whose normalized box is the lower right quarter of the frame. -/
def quarterFace : Detection := ⟨0, 0.9, 0.5, 0.5, 1, 1⟩

/-- The tensor that holds `quarterFace`, then the sentinel. -/
def quarterTensor : List ℚ := [0, 0, 0.9, 0.5, 0.5, 1, 1, -1]

/-- The gate of the depth correlator: depth requested, a depth frame obtained in this call, and
a best face (the element of `dets` at position `maxPos`, with a score at or above the threshold)
whose crop has positive width and height. -/
def depthGate (a : Args) (e : Env) : Prop :=
  a.useDepth = true ∧ 0 < e.depthFrames ∧
  ∃ s d, decode e.detData a.faceScoreThreshold = .ok s ∧ s.dets[s.maxPos]? = some d ∧
    a.faceScoreThreshold ≤ d.score ∧
    0 < (cropSize (cropBox (pixelBox d (previewFrame a e)))).cols ∧
    0 < (cropSize (cropBox (pixelBox d (previewFrame a e)))).rows

/-- The record of scenario C without a sentinel after it: seven elements. -/
def unterminated : List ℚ := [0, 0, 0.9, 0.1, 0.1, 0.5, 0.5]

/-- The detection decoded from the record of scenario C. -/
def scenarioFace : Detection := ⟨0, 0.9, 0.1, 0.1, 0.5, 0.5⟩

/-- The result object of scenario C on a 300 x 300 frame, with the stage-2 response
`fiveScores` and the depth coordinates (10, 20, 30). -/
def scenarioReply : ResultObject :=
  ⟨none, none,
   [("label", .uint 0), ("score", .float 0.9), ("xmin", .float 0.1), ("ymin", .float 0.1),
    ("xmax", .float 0.5), ("ymax", .float 0.5), ("xcenter", .int 90), ("ycenter", .int 90),
    ("X", .int 10), ("Y", .int 20), ("Z", .int 30)],
   [("neutral", .float 0.1), ("happy", .float 0.2), ("sad", .float 0.3),
    ("surprise", .float 0.25), ("anger", .float 0.15)]⟩

/-! # Lemmas -/

/-! ## The decode loop -/

theorem readDet_append (pre rest : List ℚ) (i j : Nat) (v : ℚ) (h : pre.length = i * 7)
    (hv : rest[j]? = some v) : readDet (pre ++ rest) (i * 7 + j) = .ok v := by
  unfold readDet
  rw [List.getElem?_append_right (by omega)]
  have : i * 7 + j - pre.length = j := by omega
  rw [this, hv]

theorem length_encode (recs : List Record) : (encode recs).length = 7 * recs.length := by
  induction recs with
  | nil => rfl
  | cons r rs ih => simp [encode, Record.toList, ih]; omega

theorem decodeLoop_records (t : ℚ) (trail : List ℚ) :
    ∀ (recs : List Record) (pre : List ℚ) (i n : Nat) (s : DecodeState),
      pre.length = i * 7 → (∀ r ∈ recs, r.batch ≠ -1) → recs.length < n →
      decodeLoop (pre ++ (encode recs ++ -1 :: trail)) t n i s = .ok (foldRecords t recs i s) := by
  intro recs
  induction recs with
  | nil =>
    intro pre i n s hpre _ hn
    obtain ⟨m, rfl⟩ : ∃ m, n = m + 1 := ⟨n - 1, by simp at hn; omega⟩
    have h0 := readDet_append pre (encode [] ++ -1 :: trail) i 0 (-1) hpre (by simp [encode])
    simp only [Nat.add_zero] at h0
    simp [decodeLoop, h0, Res.bind, foldRecords]
  | cons r rs ih =>
    intro pre i n s hpre hrecs hn
    obtain ⟨m, rfl⟩ : ∃ m, n = m + 1 := ⟨n - 1, by simp at hn; omega⟩
    have hb : r.batch ≠ -1 := hrecs r (List.mem_cons_self _ _)
    have hrs : ∀ r' ∈ rs, r'.batch ≠ -1 := fun r' h' => hrecs r' (List.mem_cons_of_mem _ h')
    have hm : rs.length < m := by simp at hn; omega
    have hrd := readDet_append pre (encode (r :: rs) ++ -1 :: trail) i
    have h0 := hrd 0 r.batch hpre (by simp [encode, Record.toList])
    have h1 := hrd 1 r.label hpre (by simp [encode, Record.toList])
    have h2 := hrd 2 r.score hpre (by simp [encode, Record.toList])
    have h3 := hrd 3 r.xmin hpre (by simp [encode, Record.toList])
    have h4 := hrd 4 r.ymin hpre (by simp [encode, Record.toList])
    have h5 := hrd 5 r.xmax hpre (by simp [encode, Record.toList])
    have h6 := hrd 6 r.ymax hpre (by simp [encode, Record.toList])
    simp only [Nat.add_zero] at h0
    have hlen : i * 7 < (pre ++ (encode (r :: rs) ++ -1 :: trail)).length := by
      simp [encode, Record.toList]; omega
    have hdata : pre ++ (encode (r :: rs) ++ -1 :: trail)
        = (pre ++ r.toList) ++ (encode rs ++ -1 :: trail) := by
      simp [encode, List.append_assoc]
    have hpre2 : (pre ++ r.toList).length = (i + 1) * 7 := by
      simp [Record.toList]; omega
    rw [decodeLoop]
    simp only [h0, h1, h2, h3, h4, h5, h6, Res.bind]
    rw [if_pos ⟨hb, hlen⟩, hdata]
    by_cases hsc : r.score ≥ t
    · rw [if_pos hsc, foldRecords, if_pos hsc]
      exact ih (pre ++ r.toList) (i + 1) m _ hpre2 hrs hm
    · rw [if_neg hsc, foldRecords, if_neg hsc]
      exact ih (pre ++ r.toList) (i + 1) m _ hpre2 hrs hm

theorem decode_records (t : ℚ) (recs : List Record) (trail : List ℚ)
    (hrecs : ∀ r ∈ recs, r.batch ≠ -1) :
    decode (encode recs ++ -1 :: trail) t = .ok (foldRecords t recs 0 DecodeState.init) := by
  have h := decodeLoop_records t trail recs [] 0 ((encode recs ++ -1 :: trail).length + 1)
    DecodeState.init rfl hrecs (by simp [length_encode]; omega)
  simp only [List.nil_append] at h
  unfold decode
  rw [if_pos (by simp), h]

theorem foldRecords_dets (t : ℚ) :
    ∀ (recs : List Record) (i : Nat) (s : DecodeState),
      (foldRecords t recs i s).dets = s.dets ++ retained t recs := by
  intro recs
  induction recs with
  | nil => intro i s; simp [foldRecords, retained]
  | cons r rs ih =>
    intro i s
    by_cases hsc : r.score ≥ t
    · rw [foldRecords, if_pos hsc, ih]
      simp [retained, List.filter_cons, hsc]
    · rw [foldRecords, if_neg hsc, ih]
      simp [retained, List.filter_cons, hsc]

theorem bind_eq_ok {α β : Type} (x : Res α) (f : α → Res β) (b : β) (h : x.bind f = .ok b) :
    ∃ a, x = .ok a ∧ f a = .ok b := by
  cases x with
  | ok a => exact ⟨a, rfl, h⟩
  | fault e => simp [Res.bind] at h

theorem bind_eq_fuel {α β : Type} (x : Res α) (f : α → Res β) (hx : x ≠ .fault .fuel)
    (h : x.bind f = .fault .fuel) : ∃ a, x = .ok a ∧ f a = .fault .fuel := by
  cases x with
  | ok a => exact ⟨a, rfl, h⟩
  | fault e =>
    simp only [Res.bind, Res.fault.injEq] at h
    exact absurd (congrArg Res.fault h) hx

theorem readDet_ne_fuel (data : List ℚ) (idx : Nat) : readDet data idx ≠ .fault .fuel := by
  unfold readDet; split <;> simp

/-- Every detection retained by the loop has a score at or above the threshold. -/
theorem decodeLoop_scores (data : List ℚ) (t : ℚ) :
    ∀ (n i : Nat) (s s' : DecodeState), decodeLoop data t n i s = .ok s' →
      (∀ d ∈ s.dets, t ≤ d.score) → ∀ d ∈ s'.dets, t ≤ d.score := by
  intro n
  induction n with
  | zero => intro i s s' h; simp [decodeLoop] at h
  | succ n ih =>
    intro i s s' h hs
    rw [decodeLoop] at h
    obtain ⟨first, -, h⟩ := bind_eq_ok _ _ _ h
    split at h
    · obtain ⟨lab, -, h⟩ := bind_eq_ok _ _ _ h
      obtain ⟨score, -, h⟩ := bind_eq_ok _ _ _ h
      split at h
      · rename_i hsc
        obtain ⟨xmin, -, h⟩ := bind_eq_ok _ _ _ h
        obtain ⟨ymin, -, h⟩ := bind_eq_ok _ _ _ h
        obtain ⟨xmax, -, h⟩ := bind_eq_ok _ _ _ h
        obtain ⟨ymax, -, h⟩ := bind_eq_ok _ _ _ h
        refine ih _ _ _ h ?_
        intro d hd
        rcases List.mem_append.1 hd with hd | hd
        · exact hs d hd
        · rw [List.mem_singleton.1 hd]; exact hsc
      · exact ih _ _ _ h hs
    · cases h; exact hs

theorem decode_scores (data : List ℚ) (t : ℚ) (s : DecodeState) (h : decode data t = .ok s) :
    ∀ d ∈ s.dets, t ≤ d.score := by
  unfold decode at h
  split at h
  · exact decodeLoop_scores data t _ _ _ _ h (by simp [DecodeState.init])
  · cases h; simp [DecodeState.init]

/-- The iteration budget `detData.size() + 1` is never used up. -/
theorem decodeLoop_ne_fuel (data : List ℚ) (t : ℚ) :
    ∀ (n i : Nat) (s : DecodeState), 1 ≤ n → data.length + 1 ≤ n + i →
      decodeLoop data t n i s ≠ .fault .fuel := by
  intro n
  induction n with
  | zero => intro i s h; omega
  | succ n ih =>
    intro i s _ hle h
    rw [decodeLoop] at h
    obtain ⟨first, -, h⟩ := bind_eq_fuel _ _ (readDet_ne_fuel _ _) h
    split at h
    · rename_i hc
      have hn : 1 ≤ n := by omega
      obtain ⟨lab, -, h⟩ := bind_eq_fuel _ _ (readDet_ne_fuel _ _) h
      obtain ⟨score, -, h⟩ := bind_eq_fuel _ _ (readDet_ne_fuel _ _) h
      split at h
      · obtain ⟨xmin, -, h⟩ := bind_eq_fuel _ _ (readDet_ne_fuel _ _) h
        obtain ⟨ymin, -, h⟩ := bind_eq_fuel _ _ (readDet_ne_fuel _ _) h
        obtain ⟨xmax, -, h⟩ := bind_eq_fuel _ _ (readDet_ne_fuel _ _) h
        obtain ⟨ymax, -, h⟩ := bind_eq_fuel _ _ (readDet_ne_fuel _ _) h
        exact ih _ _ hn (by omega) h
      · exact ih _ _ hn (by omega) h
    · cases h

theorem decode_ne_fuel (data : List ℚ) (t : ℚ) : decode data t ≠ .fault .fuel := by
  unfold decode
  split
  · exact decodeLoop_ne_fuel data t _ _ _ (by omega) (by omega)
  · simp

/-! ## The loop over `dets` -/

theorem bestLoop_past (a : Args) (e : Env) (frame : Mat) (maxPos : Nat) :
    ∀ (ds : List Detection) (i : Nat) (st : LoopState), maxPos < i →
      bestLoop a e frame maxPos ds i st = st := by
  intro ds
  induction ds with
  | nil => intro i st _; rfl
  | cons d ds ih =>
    intro i st hi
    rw [bestLoop, if_neg (by omega)]
    exact ih (i + 1) st (by omega)

theorem bestLoop_eq (a : Args) (e : Env) (frame : Mat) (maxPos : Nat) :
    ∀ (ds : List Detection) (i : Nat) (st : LoopState), i ≤ maxPos →
      bestLoop a e frame maxPos ds i st =
        match ds[maxPos - i]? with
        | some d => bestBody a e frame d st
        | none => st := by
  intro ds
  induction ds with
  | nil => intro i st _; simp [bestLoop]
  | cons d ds ih =>
    intro i st hi
    rw [bestLoop]
    by_cases h : i = maxPos
    · subst h
      simp only [if_true, Nat.sub_self, List.getElem?_cons_zero]
      split
      · rfl
      · exact bestLoop_past a e frame i ds (i + 1) _ (by omega)
    · rw [if_neg h, ih (i + 1) st (by omega)]
      have : maxPos - i = (maxPos - (i + 1)) + 1 := by omega
      rw [this, List.getElem?_cons_succ]

theorem readDet_eq_ok (data : List ℚ) (idx : Nat) (v : ℚ) (h : readDet data idx = .ok v) :
    data[idx]? = some v := by
  unfold readDet at h
  split at h
  · rename_i w hw; cases h; exact hw
  · cases h

theorem readDet_eq_fault (data : List ℚ) (idx : Nat) (f : Fault)
    (h : readDet data idx = .fault f) : f = .detDataRead idx ∧ data.length ≤ idx := by
  unfold readDet at h
  split at h
  · cases h
  · rename_i hn
    cases h
    exact ⟨rfl, List.getElem?_eq_none_iff.1 hn⟩

theorem bind_eq_fault {α β : Type} (x : Res α) (g : α → Res β) (f : Fault)
    (h : x.bind g = .fault f) : x = .fault f ∨ ∃ a, x = .ok a ∧ g a = .fault f := by
  cases x with
  | ok a => exact Or.inr ⟨a, rfl, h⟩
  | fault e =>
    simp only [Res.bind, Res.fault.injEq] at h
    exact Or.inl (congrArg Res.fault h)

/-- The loop ends without a fault only at a record that starts with the sentinel. -/
theorem decodeLoop_ok_sentinel (data : List ℚ) (t : ℚ) :
    ∀ (n i : Nat) (s s' : DecodeState), decodeLoop data t n i s = .ok s' →
      ∃ k, data[k * 7]? = some (-1 : ℚ) := by
  intro n
  induction n with
  | zero => intro i s s' h; simp [decodeLoop] at h
  | succ n ih =>
    intro i s s' h
    rw [decodeLoop] at h
    obtain ⟨first, h0, h⟩ := bind_eq_ok _ _ _ h
    have hget := readDet_eq_ok _ _ _ h0
    split at h
    · obtain ⟨lab, -, h⟩ := bind_eq_ok _ _ _ h
      obtain ⟨score, -, h⟩ := bind_eq_ok _ _ _ h
      split at h
      · obtain ⟨xmin, -, h⟩ := bind_eq_ok _ _ _ h
        obtain ⟨ymin, -, h⟩ := bind_eq_ok _ _ _ h
        obtain ⟨xmax, -, h⟩ := bind_eq_ok _ _ _ h
        obtain ⟨ymax, -, h⟩ := bind_eq_ok _ _ _ h
        exact ih _ _ _ h
      · exact ih _ _ _ h
    · rename_i hc
      have hlt : i * 7 < data.length := by
        by_contra hge
        rw [List.getElem?_eq_none_iff.2 (by omega)] at hget
        cases hget
      have hfirst : first = -1 := by
        by_contra hne
        exact hc ⟨hne, hlt⟩
      exact ⟨i, by rw [hget, hfirst]⟩

/-- A fault of the loop is a read of `detData` at an index at or beyond its size. -/
theorem decodeLoop_fault_index (data : List ℚ) (t : ℚ) :
    ∀ (n i : Nat) (s : DecodeState) (f : Fault), decodeLoop data t n i s = .fault f →
      f = .fuel ∨ ∃ idx, data.length ≤ idx ∧ f = .detDataRead idx := by
  have key : ∀ (idx : Nat) (f : Fault), readDet data idx = .fault f →
      f = .fuel ∨ ∃ idx, data.length ≤ idx ∧ f = .detDataRead idx := fun idx f h =>
    Or.inr ⟨idx, (readDet_eq_fault _ _ _ h).2, (readDet_eq_fault _ _ _ h).1⟩
  intro n
  induction n with
  | zero => intro i s f h; simp only [decodeLoop, Res.fault.injEq] at h; exact Or.inl h.symm
  | succ n ih =>
    intro i s f h
    rw [decodeLoop] at h
    rcases bind_eq_fault _ _ _ h with h | ⟨first, -, h⟩
    · exact key _ _ h
    split at h
    · rcases bind_eq_fault _ _ _ h with h | ⟨lab, -, h⟩
      · exact key _ _ h
      rcases bind_eq_fault _ _ _ h with h | ⟨score, -, h⟩
      · exact key _ _ h
      split at h
      · rcases bind_eq_fault _ _ _ h with h | ⟨xmin, -, h⟩
        · exact key _ _ h
        rcases bind_eq_fault _ _ _ h with h | ⟨ymin, -, h⟩
        · exact key _ _ h
        rcases bind_eq_fault _ _ _ h with h | ⟨xmax, -, h⟩
        · exact key _ _ h
        rcases bind_eq_fault _ _ _ h with h | ⟨ymax, -, h⟩
        · exact key _ _ h
        exact ih _ _ _ h
      · exact ih _ _ _ h
    · cases h

/-- On every non-empty tensor in which no record starts with the sentinel, the decode loop
reads `detData` at an index at or beyond its size. -/
theorem decode_without_sentinel (data : List ℚ) (t : ℚ) (hne : data ≠ [])
    (hno : ∀ k, data[k * 7]? ≠ some (-1 : ℚ)) :
    ∃ idx, data.length ≤ idx ∧ decode data t = .fault (.detDataRead idx) := by
  have hpos : data.length > 0 := List.length_pos.2 hne
  cases hd : decode data t with
  | ok s =>
    unfold decode at hd
    rw [if_pos hpos] at hd
    obtain ⟨k, hk⟩ := decodeLoop_ok_sentinel data t _ _ _ _ hd
    exact absurd hk (hno k)
  | fault f =>
    have hfuel : f ≠ .fuel := fun h => decode_ne_fuel data t (by rw [hd, h])
    unfold decode at hd
    rw [if_pos hpos] at hd
    rcases decodeLoop_fault_index data t _ _ _ _ hd with h | ⟨idx, hle, h⟩
    · exact absurd h hfuel
    · exact ⟨idx, hle, by rw [h]⟩

/-! ## Conversion to `int`, pixel box, crop box -/

theorem truncToInt_of_nonneg (q : ℚ) (h : 0 ≤ q) : truncToInt q = ⌊q⌋ := by
  unfold truncToInt
  rw [Int.tdiv_eq_ediv (Rat.num_nonneg.2 h) (Int.ofNat_nonneg _), Rat.floor_def]

theorem truncToInt_nonneg (q : ℚ) (h : 0 ≤ q) : 0 ≤ truncToInt q := by
  rw [truncToInt_of_nonneg q h]; exact Int.floor_nonneg.2 h

theorem truncToInt_le (q : ℚ) (n : Int) (h : 0 ≤ q) (hn : q ≤ n) : truncToInt q ≤ n := by
  rw [truncToInt_of_nonneg q h]
  have := Int.floor_le_floor hn
  rwa [Int.floor_intCast] at this

theorem truncToInt_scaled (x : ℚ) (n : Int) (h0 : 0 ≤ x) (h1 : x ≤ 1) (hn : 0 ≤ n) :
    0 ≤ truncToInt (x * n) ∧ truncToInt (x * n) ≤ n := by
  have hn' : (0 : ℚ) ≤ n := by exact_mod_cast hn
  have hx : 0 ≤ x * n := mul_nonneg h0 hn'
  refine ⟨truncToInt_nonneg _ hx, truncToInt_le _ _ hx ?_⟩
  calc x * n ≤ 1 * n := mul_le_mul_of_nonneg_right h1 hn'
    _ = n := one_mul _

theorem cropBox_max_le (b : Box) : (cropBox b).x2 ≤ b.x2 ∧ (cropBox b).y2 ≤ b.y2 := by
  unfold cropBox
  split
  · omega
  · dsimp only
    refine ⟨?_, ?_⟩ <;> split <;> omega

theorem center_between (lo hi : Int) (h : lo ≤ hi) : lo ≤ center lo hi ∧ center lo hi ≤ hi := by
  unfold center
  have h0 : 0 ≤ hi - lo := by omega
  rw [Int.tdiv_eq_ediv h0 (by decide)]
  omega

theorem cropBox_bounds (b : Box) :
    0 ≤ (cropBox b).x1 ∧ 0 ≤ (cropBox b).y1 ∧ (cropBox b).x2 ≤ 300 ∧ (cropBox b).y2 ≤ 300 ∧
    (0 ≤ b.x1 → (cropBox b).x1 = b.x1) ∧ (0 ≤ b.y1 → (cropBox b).y1 = b.y1) ∧
    (0 ≤ b.x2 → 0 ≤ (cropBox b).x2) ∧ (0 ≤ b.y2 → 0 ≤ (cropBox b).y2) := by
  unfold cropBox
  split
  · omega
  · dsimp only
    refine ⟨?_, ?_, ?_, ?_, ?_, ?_, ?_, ?_⟩ <;> split <;> omega

/-- For a normalized box within [0,1]^4 the rectangle given to `frame(cv::Rect(..))` lies inside
the frame, as OpenCV requires. -/
theorem crop_inside_frame (d : Detection) (frame : Mat)
    (hx1 : 0 ≤ d.x_min ∧ d.x_min ≤ 1) (hy1 : 0 ≤ d.y_min ∧ d.y_min ≤ 1)
    (hx2 : 0 ≤ d.x_max ∧ d.x_max ≤ 1) (hy2 : 0 ≤ d.y_max ∧ d.y_max ≤ 1)
    (hW : 0 ≤ frame.cols) (hH : 0 ≤ frame.rows) :
    0 ≤ min (cropBox (pixelBox d frame)).x1 (cropBox (pixelBox d frame)).x2 ∧
    max (cropBox (pixelBox d frame)).x1 (cropBox (pixelBox d frame)).x2 ≤ frame.cols ∧
    0 ≤ min (cropBox (pixelBox d frame)).y1 (cropBox (pixelBox d frame)).y2 ∧
    max (cropBox (pixelBox d frame)).y1 (cropBox (pixelBox d frame)).y2 ≤ frame.rows := by
  have a1 := truncToInt_scaled d.x_min frame.cols hx1.1 hx1.2 hW
  have a2 := truncToInt_scaled d.y_min frame.rows hy1.1 hy1.2 hH
  have a3 := truncToInt_scaled d.x_max frame.cols hx2.1 hx2.2 hW
  have a4 := truncToInt_scaled d.y_max frame.rows hy2.1 hy2.2 hH
  obtain ⟨b1, b2, -, -, b5, b6, b7, b8⟩ := cropBox_bounds (pixelBox d frame)
  obtain ⟨m1, m2⟩ := cropBox_max_le (pixelBox d frame)
  have c1 := b5 a1.1
  have c2 := b6 a2.1
  have c3 := b7 a3.1
  have c4 := b8 a4.1
  have e1 : (pixelBox d frame).x1 ≤ frame.cols := a1.2
  have e2 : (pixelBox d frame).y1 ≤ frame.rows := a2.2
  have e3 : (pixelBox d frame).x2 ≤ frame.cols := a3.2
  have e4 : (pixelBox d frame).y2 ≤ frame.rows := a4.2
  refine ⟨le_min b1 c3, max_le (by omega) (by omega), le_min b2 c4, max_le (by omega) (by omega)⟩

/-! ## Objects -/

theorem getMember_setMember_self (o : Obj) (k : String) (v : JVal) :
    getMember (setMember o k v) k = some v := by
  induction o with
  | nil => simp [setMember, getMember]
  | cons p rest ih =>
    obtain ⟨k', w⟩ := p
    by_cases h : k' = k
    · simp [setMember, getMember, h]
    · simp [setMember, getMember, h, ih]

theorem getMember_setMember_ne (o : Obj) (k k' : String) (v : JVal) (hk : k ≠ k') :
    getMember (setMember o k v) k' = getMember o k' := by
  induction o with
  | nil => simp [setMember, getMember, hk]
  | cons p rest ih =>
    obtain ⟨k0, w⟩ := p
    by_cases h : k0 = k
    · subst h; simp [setMember, getMember, hk]
    · simp only [setMember, if_neg h, getMember, ih]

theorem getMember_depthMembers (k : String) (hX : "X" ≠ k) (hY : "Y" ≠ k) (hZ : "Z" ≠ k) :
    ∀ (sp : List Spatial) (o : Obj), getMember (depthMembers sp o) k = getMember o k := by
  intro sp
  induction sp with
  | nil => intro o; rfl
  | cons s sp ih =>
    intro o
    unfold depthMembers at ih ⊢
    rw [List.foldl_cons, ih, getMember_setMember_ne _ _ _ _ hZ, getMember_setMember_ne _ _ _ _ hY,
      getMember_setMember_ne _ _ _ _ hX]

theorem bestMembers_nil (d : Detection) (mx my : Int) :
    bestMembers [] d mx my =
      [("label", .uint d.label), ("score", .float d.score), ("xmin", .float d.x_min),
       ("ymin", .float d.y_min), ("xmax", .float d.x_max), ("ymax", .float d.y_max),
       ("xcenter", .int mx), ("ycenter", .int my)] := by
  simp [bestMembers, setMember]

/-! ## The call on a running device -/

theorem runningCall_eq (a : Args) (e : Env) (s : DecodeState)
    (h : decode e.detData a.faceScoreThreshold = .ok s) :
    runningCall a e = conclude a e
      (match s.dets[s.maxPos]? with
       | some d => bestBody a e (previewFrame a e) d (loopStart a)
       | none => loopStart a) := by
  unfold runningCall conclude
  simp only [h]
  rw [bestLoop_eq a e _ s.maxPos s.dets 0 _ (Nat.zero_le _)]
  simp only [Nat.sub_zero, loopStart]

theorem bestLoop_detData (a : Args) (e : Env) (data : List ℚ) (frame : Mat) (maxPos : Nat) :
    ∀ (ds : List Detection) (i : Nat) (st : LoopState),
      bestLoop a { e with detData := data } frame maxPos ds i st =
        bestLoop a e frame maxPos ds i st := by
  intro ds
  induction ds with
  | nil => intro i st; rfl
  | cons d ds ih =>
    intro i st
    rw [bestLoop, bestLoop]
    simp only [ih]
    rfl

theorem runningCall_detData (a : Args) (e : Env) (data : List ℚ) (s : DecodeState)
    (h : decode data a.faceScoreThreshold = .ok s) :
    runningCall a { e with detData := data } =
      conclude a e (bestLoop a e (previewFrame a e) s.maxPos s.dets 0 (loopStart a)) := by
  unfold runningCall conclude
  simp only [h, bestLoop_detData]
  rfl

theorem FaceEmotionResults_running (a : Args) (e : Env)
    (hp : e.devicePresent a.deviceNum = true) (hr : e.deviceRunning a.deviceNum = true) :
    FaceEmotionResults a e = runningCall a e := by
  simp [FaceEmotionResults, hp, hr]

theorem best_score_of_decode (data : List ℚ) (t : ℚ) (s : DecodeState) (d : Detection)
    (hdec : decode data t = .ok s) (hbest : s.dets[s.maxPos]? = some d) : t ≤ d.score :=
  decode_scores data t s hdec d (List.getElem?_mem hbest)

theorem finish_depth_free (a : Args) (e : Env) (frame : Mat) (st : LoopState)
    (h : ∀ ev ∈ st.trace, ev.isComputeDepth = false) :
    ∀ ev ∈ (finish a e frame st).trace, ev.isComputeDepth = false := by
  intro ev hev
  simp only [finish, List.mem_append] at hev
  rcases hev with ((hev | hev) | hev) | hev
  · exact h ev hev
  · split at hev <;> simp at hev; subst hev; rfl
  · split at hev <;> simp at hev; subst hev; rfl
  · split at hev <;> simp at hev; subst hev; rfl

theorem depth_free_start (a : Args) : ∀ ev ∈ (loopStart a).trace, ev.isComputeDepth = false := by
  have h : (loopStart a).trace.all (fun ev => !ev.isComputeDepth) = true := by
    simp only [loopStart, openQueues, fetchEvents]
    cases a.getPreview <;> cases a.useDepth <;> rfl
  intro ev hev
  have := List.all_eq_true.1 h ev hev
  simpa using this

theorem keys_bestMembers_nil (d : Detection) (mx my : Int) :
    keys (bestMembers [] d mx my) = bestKeys := by
  rw [bestMembers_nil]; rfl

theorem call_decode_fault (a : Args) (e : Env) (f : Fault)
    (hp : e.devicePresent a.deviceNum = true) (hr : e.deviceRunning a.deviceNum = true)
    (hdec : decode e.detData a.faceScoreThreshold = .fault f) :
    FaceEmotionResults a e = ⟨(loopStart a).trace, .fault f⟩ := by
  rw [FaceEmotionResults_running a e hp hr]
  unfold runningCall
  simp only [hdec, loopStart]

theorem call_with_best (a : Args) (e : Env) (s : DecodeState) (d : Detection)
    (hp : e.devicePresent a.deviceNum = true) (hr : e.deviceRunning a.deviceNum = true)
    (hdec : decode e.detData a.faceScoreThreshold = .ok s) (hbest : s.dets[s.maxPos]? = some d) :
    FaceEmotionResults a e = conclude a e (bestBody a e (previewFrame a e) d (loopStart a)) := by
  rw [FaceEmotionResults_running a e hp hr, runningCall_eq a e s hdec, hbest]

theorem call_without_best (a : Args) (e : Env) (s : DecodeState)
    (hp : e.devicePresent a.deviceNum = true) (hr : e.deviceRunning a.deviceNum = true)
    (hdec : decode e.detData a.faceScoreThreshold = .ok s) (hbest : s.dets[s.maxPos]? = none) :
    FaceEmotionResults a e = finish a e (previewFrame a e) (loopStart a) := by
  rw [FaceEmotionResults_running a e hp hr, runningCall_eq a e s hdec, hbest]
  rfl

theorem bestBody_degenerate (a : Args) (e : Env) (frame : Mat) (d : Detection) (st : LoopState)
    (ht : a.faceScoreThreshold ≤ d.score)
    (hg : ¬ ((cropSize (cropBox (pixelBox d frame))).cols > 0 ∧
      (cropSize (cropBox (pixelBox d frame))).rows > 0)) :
    bestBody a e frame d st =
      ⟨st.trace, bestMembers st.bestFace d (center (pixelBox d frame).x1 (pixelBox d frame).x2)
        (center (pixelBox d frame).y1 (pixelBox d frame).y2), st.faceEmotion, none⟩ := by
  unfold bestBody
  simp only [if_pos ht, if_neg hg]

theorem bestBody_fault (a : Args) (e : Env) (frame : Mat) (d : Detection) (st : LoopState)
    (f : Fault) (ht : a.faceScoreThreshold ≤ d.score)
    (hg : (cropSize (cropBox (pixelBox d frame))).cols > 0 ∧
      (cropSize (cropBox (pixelBox d frame))).rows > 0)
    (hem : emotionDecode e.detfaceYData st.faceEmotion = .fault f) :
    bestBody a e frame d st =
      ⟨st.trace ++ [Event.send "landm_in", Event.get "landm_out"],
        bestMembers st.bestFace d (center (pixelBox d frame).x1 (pixelBox d frame).x2)
          (center (pixelBox d frame).y1 (pixelBox d frame).y2), st.faceEmotion, some f⟩ := by
  unfold bestBody
  simp only [if_pos ht, if_pos hg, hem]

theorem bestBody_stage2 (a : Args) (e : Env) (frame : Mat) (d : Detection) (st : LoopState)
    (fe : Obj) (ht : a.faceScoreThreshold ≤ d.score)
    (hg : (cropSize (cropBox (pixelBox d frame))).cols > 0 ∧
      (cropSize (cropBox (pixelBox d frame))).rows > 0)
    (hem : emotionDecode e.detfaceYData st.faceEmotion = .ok fe) :
    bestBody a e frame d st =
      ⟨st.trace ++ [Event.send "landm_in", Event.get "landm_out"]
          ++ (if a.useDepth = true ∧ e.depthFrames > 0 then
              [Event.computeDepth (center (pixelBox d frame).x1 (pixelBox d frame).x2)
                (center (pixelBox d frame).y1 (pixelBox d frame).y2) frame.rows] else [])
          ++ (if a.drawBestFaceInPreview = true then
              [Event.rectangle (cropBox (pixelBox d frame)).x1 (cropBox (pixelBox d frame)).y1
                (cropBox (pixelBox d frame)).x2 (cropBox (pixelBox d frame)).y2] else []),
        if a.useDepth = true ∧ e.depthFrames > 0 then
          depthMembers (e.computeDepth (center (pixelBox d frame).x1 (pixelBox d frame).x2)
            (center (pixelBox d frame).y1 (pixelBox d frame).y2) frame.rows)
            (bestMembers st.bestFace d (center (pixelBox d frame).x1 (pixelBox d frame).x2)
              (center (pixelBox d frame).y1 (pixelBox d frame).y2))
        else bestMembers st.bestFace d (center (pixelBox d frame).x1 (pixelBox d frame).x2)
              (center (pixelBox d frame).y1 (pixelBox d frame).y2),
        fe, none⟩ := by
  unfold bestBody
  simp only [if_pos ht, if_pos hg, hem]

/-! ## The call without a preview frame -/

/-- C1 (evaluation at the failing input). On the tensor with scores 0.3, 0.9, 0.6 and threshold
0.5 the decode loop retains the records with scores 0.9 and 0.6, records `maxScore = 0.9` and
`maxPos = 1` (the position of the 0.9 record in the tensor, not in `dets`), and the call reports
as "best" the element of `dets` at position 1: the record with label 2 and score 0.6. -/
theorem best_is_taken_at_tensor_position :
    decode threeFaces 0.5 =
      .ok ⟨[⟨1, 0.9, 0.25, 0.25, 0.75, 0.75⟩, ⟨2, 0.6, 0.5, 0.5, 1, 1⟩], 0.9, 1⟩ ∧
    (FaceEmotionResults (scenarioArgs 0.5 false) (scenarioEnv ⟨300, 300⟩ threeFaces fiveScores)).best =
      some [("label", .uint 2), ("score", .float 0.6), ("xmin", .float 0.5), ("ymin", .float 0.5),
        ("xmax", .float 1), ("ymax", .float 1), ("xcenter", .int 225), ("ycenter", .int 225),
        ("X", .int 10), ("Y", .int 20), ("Z", .int 30)] := by
  decide!

/-- C2. On a tensor made of `k` complete records that do not start with -1, then a record that
starts with the sentinel -1, then any data, the decode loop returns, and the retained list is the
list of the records whose score is at least the threshold, in order, with label and box taken
from the record; the decode result and the whole run do not depend on the data after the
sentinel. -/
theorem decode_stops_at_sentinel (t : ℚ) (recs : List Record) (trail : List ℚ)
    (hrecs : ∀ r ∈ recs, r.batch ≠ -1) :
    (∃ s, decode (encode recs ++ -1 :: trail) t = .ok s ∧ s.dets = retained t recs) ∧
    (∀ trail2 : List ℚ,
      decode (encode recs ++ -1 :: trail2) t = decode (encode recs ++ -1 :: trail) t) ∧
    (∀ (a : Args) (e : Env) (trail2 : List ℚ),
      FaceEmotionResults a { e with detData := encode recs ++ -1 :: trail2 } =
        FaceEmotionResults a { e with detData := encode recs ++ -1 :: trail }) := by
  refine ⟨⟨_, decode_records t recs trail hrecs, ?_⟩, ?_, ?_⟩
  · rw [foldRecords_dets]; simp [DecodeState.init]
  · intro trail2
    rw [decode_records t recs trail hrecs, decode_records t recs trail2 hrecs]
  · intro a e trail2
    simp only [FaceEmotionResults,
      runningCall_detData a e _ _ (decode_records a.faceScoreThreshold recs trail hrecs),
      runningCall_detData a e _ _ (decode_records a.faceScoreThreshold recs trail2 hrecs)]

/-- C2, at the tensor of scenario C followed by two more elements. -/
theorem decode_stops_at_sentinel_witness :
    (∀ r ∈ [(⟨0, 0, 0.9, 0.1, 0.1, 0.5, 0.5⟩ : Record)], r.batch ≠ -1) ∧
    (∃ s, decode (encode [⟨0, 0, 0.9, 0.1, 0.1, 0.5, 0.5⟩] ++ -1 :: [7, 7]) 0.5 = .ok s ∧
      s.dets = retained 0.5 [⟨0, 0, 0.9, 0.1, 0.1, 0.5, 0.5⟩]) :=
  ⟨by decide!, (decode_stops_at_sentinel 0.5 [⟨0, 0, 0.9, 0.1, 0.1, 0.5, 0.5⟩] [7, 7]
    (by decide!)).1⟩

/-- C3 (counterexample). The box (0.5, 0.5, 1, 1) lies in [0,1]^4; on a 1000 x 1000 frame its
pixel box is (500, 500, 1000, 1000), the test of line 356 fails, and the clamping branch leaves
the crop box (500, 500, 300, 300), the box that the call passes on: `x1` and `y1` exceed 300. -/
theorem cropBox_min_corner_above_300 :
    (0 ≤ quarterFace.x_min ∧ quarterFace.x_min ≤ 1 ∧ 0 ≤ quarterFace.y_min ∧
      quarterFace.y_min ≤ 1 ∧ 0 ≤ quarterFace.x_max ∧ quarterFace.x_max ≤ 1 ∧
      0 ≤ quarterFace.y_max ∧ quarterFace.y_max ≤ 1) ∧
    cropBox (pixelBox quarterFace ⟨1000, 1000⟩) = ⟨500, 500, 300, 300⟩ ∧
    ¬ (cropBox (pixelBox quarterFace ⟨1000, 1000⟩)).x1 ≤ 300 ∧
    Event.rectangle 500 500 300 300 ∈
      (FaceEmotionResults (scenarioArgs 0.5 true)
        (scenarioEnv ⟨1000, 1000⟩ quarterTensor fiveScores)).trace := by
  decide!

/-- C3 (amended). For a normalized box in [0,1]^4 and a frame of `W` columns and `H` rows, the
crop box has `0 ≤ x1 ≤ W`, `0 ≤ y1 ≤ H`, `0 ≤ x2 ≤ 300` and `0 ≤ y2 ≤ 300`: `x1` and `y1` are only
raised to 0, `x2` and `y2` are only lowered to 300.  All four lie in [0, 300] when `W ≤ 300` and
`H ≤ 300`. -/
theorem cropBox_of_normalized_box (d : Detection) (frame : Mat)
    (hx1 : 0 ≤ d.x_min ∧ d.x_min ≤ 1) (hy1 : 0 ≤ d.y_min ∧ d.y_min ≤ 1)
    (hx2 : 0 ≤ d.x_max ∧ d.x_max ≤ 1) (hy2 : 0 ≤ d.y_max ∧ d.y_max ≤ 1)
    (hW : 0 ≤ frame.cols) (hH : 0 ≤ frame.rows) :
    (0 ≤ (cropBox (pixelBox d frame)).x1 ∧ (cropBox (pixelBox d frame)).x1 ≤ frame.cols) ∧
    (0 ≤ (cropBox (pixelBox d frame)).y1 ∧ (cropBox (pixelBox d frame)).y1 ≤ frame.rows) ∧
    (0 ≤ (cropBox (pixelBox d frame)).x2 ∧ (cropBox (pixelBox d frame)).x2 ≤ 300) ∧
    (0 ≤ (cropBox (pixelBox d frame)).y2 ∧ (cropBox (pixelBox d frame)).y2 ≤ 300) ∧
    (frame.cols ≤ 300 → frame.rows ≤ 300 →
      (cropBox (pixelBox d frame)).x1 ≤ 300 ∧ (cropBox (pixelBox d frame)).y1 ≤ 300) := by
  have a1 := truncToInt_scaled d.x_min frame.cols hx1.1 hx1.2 hW
  have a2 := truncToInt_scaled d.y_min frame.rows hy1.1 hy1.2 hH
  have a3 := truncToInt_scaled d.x_max frame.cols hx2.1 hx2.2 hW
  have a4 := truncToInt_scaled d.y_max frame.rows hy2.1 hy2.2 hH
  obtain ⟨b1, b2, b3, b4, b5, b6, b7, b8⟩ := cropBox_bounds (pixelBox d frame)
  have c1 := b5 a1.1
  have c2 := b6 a2.1
  have c3 := b7 a3.1
  have c4 := b8 a4.1
  have e1 : (pixelBox d frame).x1 ≤ frame.cols := a1.2
  have e2 : (pixelBox d frame).y1 ≤ frame.rows := a2.2
  refine ⟨⟨b1, ?_⟩, ⟨b2, ?_⟩, ⟨c3, b3⟩, ⟨c4, b4⟩, ?_⟩
  · omega
  · omega
  · intro _ _; omega

/-- C3 (amended), at the box (0.5, 0.5, 1, 1) on a 1000 x 1000 frame. -/
theorem cropBox_of_normalized_box_witness :
    (0 ≤ (cropBox (pixelBox quarterFace ⟨1000, 1000⟩)).x1 ∧
      (cropBox (pixelBox quarterFace ⟨1000, 1000⟩)).x1 ≤ 1000) ∧
    (0 ≤ (cropBox (pixelBox quarterFace ⟨1000, 1000⟩)).x2 ∧
      (cropBox (pixelBox quarterFace ⟨1000, 1000⟩)).x2 ≤ 300) :=
  have h := cropBox_of_normalized_box quarterFace ⟨1000, 1000⟩ (by decide!) (by decide!)
    (by decide!) (by decide!) (by decide) (by decide)
  ⟨h.1, h.2.2.1⟩

/-- C7 (evaluation at the failing input). A stage-2 response with one element passes the test
`size() > 0` of line 382, and line 385 then reads `detfaceYData[1]`, an index equal to the
length; the same happens at index 4 for a response with four elements.  The call that receives
the one-element response for the face of scenario C has no defined result. -/
theorem short_response_is_read_past_its_end :
    emotionDecode [0.5] [] = .fault (.emotionRead 1) ∧
    emotionDecode [0.4, 0.3, 0.2, 0.1] [] = .fault (.emotionRead 4) ∧
    (FaceEmotionResults (scenarioArgs 0.5 false) (scenarioEnv ⟨300, 300⟩ oneFace [0.5])).result
      = .fault (.emotionRead 1) := by
  decide!

/-- C8 (evaluation at the failing input). On a tensor of seven elements without sentinel the
loop condition reads `detData[7]`, an index equal to the length, before it tests `i*7` against
the size; on a tensor of nine elements without sentinel the body reads `detData[9]` for a record
that is not complete.  The call on the seven-element tensor has no defined result. -/
theorem unterminated_tensor_is_read_past_its_end :
    decode unterminated 0.5 = .fault (.detDataRead 7) ∧
    decode (unterminated ++ [0, 1]) 0.5 = .fault (.detDataRead 9) ∧
    (FaceEmotionResults (scenarioArgs 0.5 false)
      (scenarioEnv ⟨300, 300⟩ unterminated fiveScores)).result = .fault (.detDataRead 7) := by
  decide!

/-- C9. On a running device whose call returns, with `d` the best face (the element of `dets`
at position `maxPos`) and `x1, y1, x2, y2` the products `xmin*W, ymin*H, xmax*W, ymax*H` converted
to `int`, where `W x H` is the size of the frame: "xcenter" is `x1 + (x2 - x1)/2` and "ycenter" is
`y1 + (y2 - y1)/2` with the division rounding toward zero, on this pixel box before any clamping;
hence `x1 ≤ xcenter ≤ x2` when `x1 ≤ x2`, and likewise for `y`. -/
theorem best_center (a : Args) (e : Env) (s : DecodeState) (d : Detection) (r : ResultObject)
    (x1 y1 x2 y2 : Int)
    (hp : e.devicePresent a.deviceNum = true) (hr : e.deviceRunning a.deviceNum = true)
    (hdec : decode e.detData a.faceScoreThreshold = .ok s) (hbest : s.dets[s.maxPos]? = some d)
    (hret : (FaceEmotionResults a e).result = .ok (.json r))
    (hx1 : x1 = truncToInt (d.x_min * (previewFrame a e).cols))
    (hy1 : y1 = truncToInt (d.y_min * (previewFrame a e).rows))
    (hx2 : x2 = truncToInt (d.x_max * (previewFrame a e).cols))
    (hy2 : y2 = truncToInt (d.y_max * (previewFrame a e).rows)) :
    getMember r.best "xcenter" = some (.int (x1 + Int.tdiv (x2 - x1) 2)) ∧
    getMember r.best "ycenter" = some (.int (y1 + Int.tdiv (y2 - y1) 2)) ∧
    (x1 ≤ x2 → x1 ≤ x1 + Int.tdiv (x2 - x1) 2 ∧ x1 + Int.tdiv (x2 - x1) 2 ≤ x2) ∧
    (y1 ≤ y2 → y1 ≤ y1 + Int.tdiv (y2 - y1) 2 ∧ y1 + Int.tdiv (y2 - y1) 2 ≤ y2) := by
  have ht := best_score_of_decode _ _ s d hdec hbest
  have hmem : ∀ mx my : Int,
      getMember (bestMembers [] d mx my) "xcenter" = some (.int mx) ∧
      getMember (bestMembers [] d mx my) "ycenter" = some (.int my) := by
    intro mx my
    rw [bestMembers_nil]
    exact ⟨rfl, rfl⟩
  have hbox : pixelBox d (previewFrame a e) = ⟨x1, y1, x2, y2⟩ := by
    rw [hx1, hy1, hx2, hy2]; rfl
  refine ⟨?_, ?_, center_between x1 x2, center_between y1 y2⟩
  all_goals
    rw [call_with_best a e s d hp hr hdec hbest] at hret
    by_cases hg : (cropSize (cropBox (pixelBox d (previewFrame a e)))).cols > 0 ∧
        (cropSize (cropBox (pixelBox d (previewFrame a e)))).rows > 0
    · cases hem : emotionDecode e.detfaceYData (loopStart a).faceEmotion with
      | fault f =>
        rw [bestBody_fault a e _ d _ f ht hg hem] at hret
        simp [conclude] at hret
      | ok fe =>
        rw [bestBody_stage2 a e _ d _ fe ht hg hem] at hret
        simp only [conclude, finish, Res.ok.injEq, Reply.json.injEq] at hret
        rw [← hret, hbox]
        dsimp only [loopStart]
        split
        · rw [getMember_depthMembers _ (by decide) (by decide) (by decide)]
          first | exact (hmem _ _).1 | exact (hmem _ _).2
        · first | exact (hmem _ _).1 | exact (hmem _ _).2
    · rw [bestBody_degenerate a e _ d _ ht hg] at hret
      simp only [conclude, finish, Res.ok.injEq, Reply.json.injEq] at hret
      rw [← hret, hbox]
      first | exact (hmem _ _).1 | exact (hmem _ _).2

/-- C9, at scenario C: one detection is retained, it is the best face, and on a 300 x 300
frame its pixel box (30, 30, 150, 150) gives `xcenter = ycenter = 90`. -/
theorem best_center_witness :
    decode oneFace 0.5 = .ok ⟨[scenarioFace], 0.9, 0⟩ ∧
    (FaceEmotionResults (scenarioArgs 0.5 false)
      (scenarioEnv ⟨300, 300⟩ oneFace fiveScores)).result = .ok (.json scenarioReply) ∧
    getMember scenarioReply.best "xcenter" = some (.int (30 + Int.tdiv (150 - 30) 2)) ∧
    getMember scenarioReply.best "ycenter" = some (.int (30 + Int.tdiv (150 - 30) 2)) ∧
    (30 : Int) + Int.tdiv (150 - 30) 2 = 90 :=
  have h := best_center (scenarioArgs 0.5 false) (scenarioEnv ⟨300, 300⟩ oneFace fiveScores)
    ⟨[scenarioFace], 0.9, 0⟩ scenarioFace scenarioReply 30 30 150 150 rfl rfl
    (by decide!) (by decide!) (by decide!) (by decide!) (by decide!) (by decide!) (by decide!)
  ⟨by decide!, by decide!, h.1, h.2.1, by decide⟩

/-- C10. On a running device: if the reply has a member X, Y or Z in "best", then depth was
requested, a depth frame was obtained in this call, and a best face with a crop of positive
width and height exists; when one of these three fails, `computeDepth` is not called, and "best"
in a reply has no member or exactly the members label, score, xmin, ymin, xmax, ymax, xcenter,
ycenter. -/
theorem depth_members_are_gated (a : Args) (e : Env)
    (hp : e.devicePresent a.deviceNum = true) (hr : e.deviceRunning a.deviceNum = true) :
    (∀ r, (FaceEmotionResults a e).result = .ok (.json r) →
      ("X" ∈ keys r.best ∨ "Y" ∈ keys r.best ∨ "Z" ∈ keys r.best) → depthGate a e) ∧
    (¬ depthGate a e →
      (∀ ev ∈ (FaceEmotionResults a e).trace, ev.isComputeDepth = false) ∧
      ∀ r, (FaceEmotionResults a e).result = .ok (.json r) →
        r.best = [] ∨ keys r.best = bestKeys) := by
  have second : ¬ depthGate a e →
      (∀ ev ∈ (FaceEmotionResults a e).trace, ev.isComputeDepth = false) ∧
      ∀ r, (FaceEmotionResults a e).result = .ok (.json r) →
        r.best = [] ∨ keys r.best = bestKeys := by
    intro hgate
    cases hdec : decode e.detData a.faceScoreThreshold with
    | fault f =>
      rw [call_decode_fault a e f hp hr hdec]
      exact ⟨depth_free_start a, fun r h => by cases h⟩
    | ok s =>
      cases hbest : s.dets[s.maxPos]? with
      | none =>
        rw [call_without_best a e s hp hr hdec hbest]
        refine ⟨finish_depth_free a e _ _ (depth_free_start a), fun r h => Or.inl ?_⟩
        simp only [finish, Res.ok.injEq, Reply.json.injEq] at h
        rw [← h]; rfl
      | some d =>
        have ht := best_score_of_decode _ _ s d hdec hbest
        rw [call_with_best a e s d hp hr hdec hbest]
        by_cases hg : (cropSize (cropBox (pixelBox d (previewFrame a e)))).cols > 0 ∧
            (cropSize (cropBox (pixelBox d (previewFrame a e)))).rows > 0
        · have hnd : ¬ (a.useDepth = true ∧ e.depthFrames > 0) := fun h =>
            hgate ⟨h.1, h.2, s, d, hdec, hbest, ht, hg.1, hg.2⟩
          cases hem : emotionDecode e.detfaceYData (loopStart a).faceEmotion with
          | fault f =>
            rw [bestBody_fault a e _ d _ f ht hg hem]
            refine ⟨?_, fun r h => by simp [conclude] at h⟩
            intro ev hev
            simp only [conclude, List.mem_append, List.mem_cons, List.mem_singleton,
              List.not_mem_nil, or_false] at hev
            rcases hev with hev | hev | hev
            · exact depth_free_start a ev hev
            · rw [hev]; rfl
            · rw [hev]; rfl
          | ok fe =>
            rw [bestBody_stage2 a e _ d _ fe ht hg hem]
            simp only [if_neg hnd, conclude]
            refine ⟨finish_depth_free a e _ _ ?_, fun r h => Or.inr ?_⟩
            · intro ev hev
              simp only [List.append_nil, List.mem_append, List.mem_cons, List.mem_singleton,
                List.not_mem_nil, or_false] at hev
              rcases hev with (hev | hev | hev) | hev
              · exact depth_free_start a ev hev
              · rw [hev]; rfl
              · rw [hev]; rfl
              · split at hev
                · rw [List.mem_singleton.1 hev]; rfl
                · cases hev
            · simp only [finish, Res.ok.injEq, Reply.json.injEq] at h
              rw [← h]
              exact keys_bestMembers_nil d _ _
        · rw [bestBody_degenerate a e _ d _ ht hg]
          refine ⟨finish_depth_free a e _ _ (depth_free_start a), fun r h => Or.inr ?_⟩
          simp only [conclude, finish, Res.ok.injEq, Reply.json.injEq] at h
          rw [← h]
          exact keys_bestMembers_nil d _ _
  refine ⟨?_, second⟩
  intro r hret hxyz
  by_contra hgate
  rcases (second hgate).2 r hret with h | h
  · rw [h] at hxyz; simp [keys] at hxyz
  · rw [h] at hxyz; revert hxyz; decide

/-- C10, at scenario C: the reply has the members X, Y, Z, and the gate holds. -/
theorem depth_members_are_gated_witness :
    (FaceEmotionResults (scenarioArgs 0.5 false)
      (scenarioEnv ⟨300, 300⟩ oneFace fiveScores)).result = .ok (.json scenarioReply) ∧
    "X" ∈ keys scenarioReply.best ∧
    depthGate (scenarioArgs 0.5 false) (scenarioEnv ⟨300, 300⟩ oneFace fiveScores) :=
  ⟨by decide!, by decide,
    (depth_members_are_gated (scenarioArgs 0.5 false)
      (scenarioEnv ⟨300, 300⟩ oneFace fiveScores) rfl rfl).1 scenarioReply (by decide!)
      (Or.inl (by decide))⟩

end FaceEmotion
